import Mathlib

/-! Verification development for a browser-based HDR video converter page.
The core under study is the filter-graph compiler (a pure derivation of an
engine argument list from an intensity scalar and a tone-curve name), the
bounded processing-log buffer, and the conversion-job state machine of the
page component.  The component is embedded shallowly: numeric values are
rationals, the JavaScript number formatter toFixed(2) is modelled exactly
(nearest hundredth, ties to the larger magnitude), the React state is an
explicit record, and engine side effects are recorded as an event trace. -/

set_option maxRecDepth 8192

namespace HDRConverter

/-- Exact fraction arithmetic standing in for JavaScript numbers.  The
fractions are kept unnormalized (no gcd) so that every operation reduces in
the kernel; at each value the claims exercise, the double-precision result
of the source expression is exactly this fraction. -/
structure Frac where
  num : Int
  den : Int
deriving DecidableEq

/-- Fraction addition by cross multiplication. -/
def Frac.add (a b : Frac) : Frac :=
  ⟨a.num * b.den + b.num * a.den, a.den * b.den⟩

/-- Fraction subtraction by cross multiplication. -/
def Frac.sub (a b : Frac) : Frac :=
  ⟨a.num * b.den - b.num * a.den, a.den * b.den⟩

/-- Fraction multiplication. -/
def Frac.mul (a b : Frac) : Frac := ⟨a.num * b.num, a.den * b.den⟩

/-- Fraction division. -/
def Frac.div (a b : Frac) : Frac := ⟨a.num * b.den, a.den * b.num⟩

/-- The rational value of a fraction, for specification-level statements. -/
def Frac.toRat (a : Frac) : ℚ := (a.num : ℚ) / (a.den : ℚ)

/-- Decimal formatting with exactly two fraction digits, following
Number.prototype.toFixed: after extracting the sign, the integer n closest
to 100 times the magnitude is chosen, ties resolved to the larger n
(computed as the floor of 100 times the magnitude plus one half). -/
def toFixed2 (q : Frac) : String :=
  let n : Nat := (q.num.natAbs * 200 + q.den.natAbs) / (2 * q.den.natAbs)
  (if q.num * q.den < 0 then "-" else "") ++ Nat.repr (n / 100) ++ "." ++
    (if n % 100 < 10 then "0" else "") ++ Nat.repr (n % 100)

/-- Source: const saturation = intensity.toFixed(2). -/
def saturation (intensity : Frac) : String := toFixed2 intensity

/-- Source: const contrast = (0.9 + (intensity - 1) * 0.8).toFixed(2),
used as the gamma argument of the eq filter. -/
def contrast (intensity : Frac) : String :=
  toFixed2 (Frac.add ⟨9, 10⟩ (Frac.mul (Frac.sub intensity ⟨1, 1⟩) ⟨8, 10⟩))

/-- Source: const highlight = (0.3 * intensity).toFixed(2). -/
def highlight (intensity : Frac) : String :=
  toFixed2 (Frac.mul ⟨3, 10⟩ intensity)

/-- Source: const midtones = (0.2 * intensity).toFixed(2). -/
def midtones (intensity : Frac) : String :=
  toFixed2 (Frac.mul ⟨2, 10⟩ intensity)

/-- Source: (1.25 / intensity).toFixed(2), the desat argument of tonemap. -/
def desat (intensity : Frac) : String :=
  toFixed2 (Frac.div ⟨5, 4⟩ intensity)

/-- The single-quote character used around the blend mode arguments. -/
def sq : String := String.singleton (Char.ofNat 39)

/-- The filterComplex array built in processVideo, one entry per stage. -/
def filterComplex (intensity : Frac) (toneMapping : String) : List String :=
  [ "zscale=transfer=bt709:matrix=bt709:primaries=bt709",
    "split=3[luma][mid][hi]",
    "[luma]eq=gamma=" ++ contrast intensity ++ ":saturation=" ++
      saturation intensity ++ "[luma_adj]",
    "[mid]curves=preset=medium_contrast:intensity=" ++ midtones intensity ++
      "[mid_adj]",
    "[hi]curves=preset=strong_contrast:intensity=" ++ highlight intensity ++
      "[hi_adj]",
    "[luma_adj][mid_adj]blend=all_mode=" ++ sq ++ "screen" ++ sq ++ "[mix1]",
    "[mix1][hi_adj]blend=all_mode=" ++ sq ++ "lighten" ++ sq ++ "[pre_hdr]",
    "[pre_hdr]tonemap=" ++ toneMapping ++ ":desat=" ++ desat intensity ++
      ":peak=1000[z]",
    "[z]zscale=matrix=bt2020ncl:primaries=bt2020:transfer=smpte2084,format=yuv420p10le" ]

/-- Fixed scratch name of the staged source file. -/
def inputName : String := "input-video.mp4"

/-- Fixed scratch name of the engine output file. -/
def outputName : String := "hdr-output.mp4"

/-- The full engine argument list built in processVideo. -/
def command (intensity : Frac) (toneMapping : String) : List String :=
  [ "-i", inputName,
    "-vf", String.intercalate ";" (filterComplex intensity toneMapping),
    "-c:v", "libx265",
    "-preset", "medium",
    "-pix_fmt", "yuv420p10le",
    "-tag:v", "hvc1",
    "-c:a", "copy",
    outputName ]

/-- min attribute of the intensity range input. -/
def intensityMin : Frac := ⟨1, 1⟩

/-- max attribute of the intensity range input. -/
def intensityMax : Frac := ⟨17, 10⟩

/-- step attribute of the intensity range input. -/
def intensityStep : Frac := ⟨1, 20⟩

/-- The option values offered by the tone-mapping select element. -/
def curveOptions : List String := ["hable", "mobius", "reinhard"]

/-- The Stage union type of the component. -/
inductive Stage
  | idle
  | loadingFFmpeg
  | ready
  | processing
  | completed
  | error
deriving DecidableEq

/-- The component state: one field per useState hook, plus ffmpegLoaded for
whether ffmpegRef.current is non-null and nextUrl as the source of fresh
object-URL handles (handles are numbered in creation order). -/
structure AppState where
  stage : Stage
  logMessages : List String
  selectedFile : Option String
  outputUrl : Option Nat
  intensity : Frac
  toneMapping : String
  errorMessage : Option String
  ffmpegLoaded : Bool
  nextUrl : Nat
deriving DecidableEq

/-- Engine-boundary side effects recorded as an event trace. -/
inductive Event
  | writeFile (name : String)
  | execCmd (args : List String)
  | readFile (name : String)
  | createUrl (u : Nat)
  | revokeUrl (u : Nat)
  | deleteFile (name : String) (ok : Bool)
deriving DecidableEq

/-- Last n elements of a list, as the slice(-n) call computes them. -/
def takeLast (n : Nat) (l : List α) : List α := l.drop (l.length - n)

/-- Body of the log state update: [...prev.slice(-24), message]. -/
def appendLog (prev : List String) (message : String) : List String :=
  takeLast 24 prev ++ [message]

/-- The log callback registered once at engine load; it appends the emitted
line to the buffer and touches nothing else, in every stage. -/
def onLogEvent (s : AppState) (message : String) : AppState :=
  { s with logMessages := appendLog s.logMessages message }

/-- User-facing message set when engine initialization fails. -/
def initFailedMessage : String :=
  "Failed to initialize the HDR engine. Refresh and try again."

/-- User-facing message set when a conversion fails. -/
def convFailedMessage : String :=
  "Conversion failed. Try lowering intensity or using a shorter clip."

/-- Synchronous prefix of loadFFmpeg: the guard returns immediately when the
engine is already loaded or a load is in flight; otherwise the stage moves
to loadingFFmpeg and one underlying initialization starts (the returned
Bool says whether an initialization was started). -/
def loadFFmpegStart (s : AppState) : AppState × Bool :=
  if s.ffmpegLoaded = true ∨ s.stage = Stage.loadingFFmpeg then (s, false)
  else ({ s with stage := Stage.loadingFFmpeg }, true)

/-- Continuation of loadFFmpeg once the awaited initialization settles:
on success the handle is stored and the stage becomes ready; on failure the
handle stays unset, an error message is shown and the stage becomes error. -/
def loadFFmpegResolve (s : AppState) (ok : Bool) : AppState :=
  if ok then { s with ffmpegLoaded := true, stage := Stage.ready }
  else { s with errorMessage := some initFailedMessage, stage := Stage.error }

/-- handleFileChange: when the change event carries a file, store it, revoke
any previously issued output handle, clear the output, and move to ready if
the engine handle exists (otherwise keep the current stage). -/
def handleFileChange (s : AppState) (file : Option String) :
    AppState × List Event :=
  match file with
  | none => (s, [])
  | some f =>
      let revokeEvents :=
        match s.outputUrl with
        | some u => [Event.revokeUrl u]
        | none => []
      ({ s with
          selectedFile := some f
          outputUrl := none
          stage := if s.ffmpegLoaded then Stage.ready else s.stage },
       revokeEvents)

/-- Where a conversion run first throws, if anywhere: staging the input
(fetchFile/writeFile), executing the command, or reading the output. -/
inductive RunResult
  | success
  | failAtWrite
  | failAtExec
  | failAtRead
deriving DecidableEq

/-- Oracle for one conversion run: where it fails, the log lines the engine
emits while executing, and whether each scratch-file deletion succeeds. -/
structure RunOutcome where
  result : RunResult
  execLogs : List String
  delInputOk : Bool
  delOutputOk : Bool
deriving DecidableEq

/-- The finally block: when the engine handle exists, a deletion of each of
the two scratch names is attempted, each wrapped in its own try/catch whose
failure is ignored. -/
def finallyEvents (s : AppState) (oc : RunOutcome) : List Event :=
  if s.ffmpegLoaded then
    [Event.deleteFile inputName oc.delInputOk,
     Event.deleteFile outputName oc.delOutputOk]
  else []

/-- processVideo: early return when the engine handle or the selected file
is missing; otherwise the stage moves to processing, the error message and
log buffer are cleared, the staged run proceeds until the step at which the
outcome says it throws, the catch branch records the user-facing message and
the error stage, the success branch creates a fresh output handle that
replaces (without revoking) the previous one, and the finally branch always
attempts both scratch deletions. -/
def processVideo (s : AppState) (oc : RunOutcome) : AppState × List Event :=
  if s.ffmpegLoaded = false ∨ s.selectedFile = none then (s, [])
  else
    let s1 : AppState :=
      { s with
          stage := Stage.processing
          errorMessage := none
          logMessages := [] }
    let cmd := command s1.intensity s1.toneMapping
    match oc.result with
    | RunResult.failAtWrite =>
        ({ s1 with
             errorMessage := some convFailedMessage
             stage := Stage.error },
         [Event.writeFile inputName] ++ finallyEvents s oc)
    | RunResult.failAtExec =>
        ({ s1 with
             logMessages := List.foldl appendLog [] oc.execLogs
             errorMessage := some convFailedMessage
             stage := Stage.error },
         [Event.writeFile inputName, Event.execCmd cmd] ++ finallyEvents s oc)
    | RunResult.failAtRead =>
        ({ s1 with
             logMessages := List.foldl appendLog [] oc.execLogs
             errorMessage := some convFailedMessage
             stage := Stage.error },
         [Event.writeFile inputName, Event.execCmd cmd,
          Event.readFile outputName] ++ finallyEvents s oc)
    | RunResult.success =>
        ({ s1 with
             logMessages := List.foldl appendLog [] oc.execLogs
             outputUrl := some s.nextUrl
             nextUrl := s.nextUrl + 1
             stage := Stage.completed },
         [Event.writeFile inputName, Event.execCmd cmd,
          Event.readFile outputName, Event.createUrl s.nextUrl] ++
           finallyEvents s oc)

/-- Source: const isReady = stage is one of ready, completed, idle, error. -/
def isReadyStage (st : Stage) : Bool :=
  decide (st = Stage.ready) || decide (st = Stage.completed) ||
  decide (st = Stage.idle) || decide (st = Stage.error)

/-- Source: const isProcessing = stage is processing. -/
def isProcessingStage (st : Stage) : Bool := decide (st = Stage.processing)

/-- Negation of the convert button disabled attribute
(!selectedFile, !isReady or isProcessing disable it). -/
def convertEnabled (s : AppState) : Bool :=
  s.selectedFile.isSome && isReadyStage s.stage &&
    !(isProcessingStage s.stage)

/-- A start-conversion request through the UI: the click reaches
processVideo only while the convert button is enabled. -/
def startConversion (s : AppState) (oc : RunOutcome) :
    AppState × List Event :=
  if convertEnabled s then processVideo s oc else (s, [])

/-- Recognizer of revocation events. -/
def Event.isRevoke : Event → Bool
  | Event.revokeUrl _ => true
  | _ => false

/-- Recognizer of deletion attempts on a given scratch name. -/
def Event.isDeleteOf (n : String) : Event → Bool
  | Event.deleteFile m _ => decide (m = n)
  | _ => false

/-- Number of deletion attempts on a given scratch name in a trace. -/
def countDelete (n : String) (evs : List Event) : Nat :=
  (evs.filter (Event.isDeleteOf n)).length

/-- A state before any engine load: the initial hook values. -/
def initState : AppState :=
  { stage := Stage.idle
    logMessages := []
    selectedFile := none
    outputUrl := none
    intensity := ⟨5, 4⟩
    toneMapping := "hable"
    errorMessage := none
    ffmpegLoaded := false
    nextUrl := 0 }

/-- A loaded state with a selected file, ready to convert. -/
def readyState : AppState :=
  { stage := Stage.ready
    logMessages := []
    selectedFile := some "clip.mp4"
    outputUrl := none
    intensity := ⟨5, 4⟩
    toneMapping := "hable"
    errorMessage := none
    ffmpegLoaded := true
    nextUrl := 0 }

/-- A state right after a first successful conversion: output handle 0 is
live and the next fresh handle is 1. -/
def completedState : AppState :=
  { readyState with
      stage := Stage.completed
      outputUrl := some 0
      nextUrl := 1 }

/-- A state captured while a conversion is in flight. -/
def processingState : AppState :=
  { readyState with stage := Stage.processing }

/-- A successful run outcome with one engine log line. -/
def okRun : RunOutcome :=
  { result := RunResult.success
    execLogs := ["frame=1"]
    delInputOk := true
    delOutputOk := true }

/-- A run that throws during engine execution. -/
def execFailRun : RunOutcome :=
  { result := RunResult.failAtExec
    execLogs := ["filter parse failure"]
    delInputOk := true
    delOutputOk := true }


/-- Dropping to the last m elements after dropping to the last n keeps only
the last m, provided m is at most n. -/
theorem takeLast_takeLast (l : List α) (m n : Nat) (h : m ≤ n) :
    takeLast m (takeLast n l) = takeLast m l := by
  unfold takeLast
  rw [List.drop_drop, List.length_drop]
  congr 1
  omega

/-- Appending one element shifts the last-n window by one. -/
theorem takeLast_append_singleton (l : List α) (a : α) (n : Nat) :
    takeLast (n + 1) (l ++ [a]) = takeLast n l ++ [a] := by
  unfold takeLast
  rw [List.drop_append_eq_append_drop]
  have h1 : (l ++ [a]).length - (n + 1) = l.length - n := by
    simp [List.length_append]
  rw [h1]
  have h2 : l.length - n - l.length = 0 := by omega
  rw [h2]
  rfl

/-- Replaying any sequence of log lines through the handler from an empty
buffer leaves exactly the last 25 lines, in order. -/
theorem foldl_appendLog (ms : List String) :
    List.foldl appendLog [] ms = takeLast 25 ms := by
  induction ms using List.reverseRecOn with
  | nil => rfl
  | append_singleton xs m ih =>
      rw [List.foldl_append, ih]
      show appendLog (takeLast 25 xs) m = takeLast 25 (xs ++ [m])
      unfold appendLog
      rw [takeLast_takeLast xs 24 25 (by omega)]
      exact (takeLast_append_singleton xs m 24).symm


/-- C7: replaying any sequence of appended log lines from an empty buffer
retains only the most recent 25 lines, dropping the oldest while preserving
the relative order of the retained lines; in particular appending 30 lines
to an empty buffer leaves exactly the last 25 in their original order. -/
theorem log_buffer_bound :
    (∀ ms : List String, List.foldl appendLog [] ms = takeLast 25 ms) ∧
    List.foldl appendLog [] ((List.range 30).map Nat.repr) =
      ((List.range 30).map Nat.repr).drop 5 := by
  refine ⟨foldl_appendLog, ?_⟩
  decide

/-- C4: at intensity 1.0 with the hable curve, the engine receives exactly
the ordered argument list -i input, -vf with the nine stages in order
(gamma 0.90, saturation 1.00, midtone strength 0.20, highlight strength
0.30, desaturation 1.25), the fixed libx265/medium/yuv420p10le/hvc1/audio
copy arguments and the output name; no stage of the pipeline is skipped. -/
theorem full_pipeline_at_intensity_one :
    command ⟨1, 1⟩ "hable" =
      [ "-i", "input-video.mp4", "-vf",
        "zscale=transfer=bt709:matrix=bt709:primaries=bt709;" ++
          "split=3[luma][mid][hi];" ++
          "[luma]eq=gamma=0.90:saturation=1.00[luma_adj];" ++
          "[mid]curves=preset=medium_contrast:intensity=0.20[mid_adj];" ++
          "[hi]curves=preset=strong_contrast:intensity=0.30[hi_adj];" ++
          "[luma_adj][mid_adj]blend=all_mode=" ++ sq ++ "screen" ++ sq ++
          "[mix1];" ++
          "[mix1][hi_adj]blend=all_mode=" ++ sq ++ "lighten" ++ sq ++
          "[pre_hdr];" ++
          "[pre_hdr]tonemap=hable:desat=1.25:peak=1000[z];" ++
          "[z]zscale=matrix=bt2020ncl:primaries=bt2020:transfer=smpte2084,format=yuv420p10le",
        "-c:v", "libx265", "-preset", "medium", "-pix_fmt", "yuv420p10le",
        "-tag:v", "hvc1", "-c:a", "copy", "hdr-output.mp4" ] ∧
    (filterComplex ⟨1, 1⟩ "hable").length = 9 := by
  constructor
  · decide
  · decide

/-- C5: at intensity 1.25 with the mobius curve, the derived two-decimal
parameters are gamma 1.10, saturation 1.25, midtone strength 0.25,
highlight strength 0.38 (0.375 rounds up to 0.38) and desaturation 1.00
(1.25 divided by 1.25). -/
theorem numeric_derivation_at_five_quarters :
    contrast ⟨5, 4⟩ = "1.10" ∧ saturation ⟨5, 4⟩ = "1.25" ∧
    midtones ⟨5, 4⟩ = "0.25" ∧ highlight ⟨5, 4⟩ = "0.38" ∧
    desat ⟨5, 4⟩ = "1.00" := by
  refine ⟨?_, ?_, ?_, ?_, ?_⟩ <;> decide

/-- C1 counterexample: intensity 2.0 lies outside the documented range
[1.0, 1.7] and the curve name linear is not among the supported options,
yet the compiler still produces a full engine command in both cases — no
validation failure occurs and a command is produced. -/
theorem compile_no_range_validation_cex :
    ¬ (Frac.toRat ⟨2, 1⟩ ≤ Frac.toRat intensityMax) ∧
    command ⟨2, 1⟩ "hable" =
      [ "-i", "input-video.mp4", "-vf",
        "zscale=transfer=bt709:matrix=bt709:primaries=bt709;" ++
          "split=3[luma][mid][hi];" ++
          "[luma]eq=gamma=1.70:saturation=2.00[luma_adj];" ++
          "[mid]curves=preset=medium_contrast:intensity=0.40[mid_adj];" ++
          "[hi]curves=preset=strong_contrast:intensity=0.60[hi_adj];" ++
          "[luma_adj][mid_adj]blend=all_mode=" ++ sq ++ "screen" ++ sq ++
          "[mix1];" ++
          "[mix1][hi_adj]blend=all_mode=" ++ sq ++ "lighten" ++ sq ++
          "[pre_hdr];" ++
          "[pre_hdr]tonemap=hable:desat=0.63:peak=1000[z];" ++
          "[z]zscale=matrix=bt2020ncl:primaries=bt2020:transfer=smpte2084,format=yuv420p10le",
        "-c:v", "libx265", "-preset", "medium", "-pix_fmt", "yuv420p10le",
        "-tag:v", "hvc1", "-c:a", "copy", "hdr-output.mp4" ] ∧
    ¬ ("linear" ∈ curveOptions) ∧
    (filterComplex ⟨5, 4⟩ "linear").get? 7 =
      some "[pre_hdr]tonemap=linear:desat=1.00:peak=1000[z]" := by
  refine ⟨?_, by decide, by decide, by decide⟩
  norm_num [Frac.toRat, intensityMax]

/-- C1 (amended): the compiler performs no range validation at all — for
every intensity and every curve string it totally produces the 15-argument
engine command (there is no validation failure path in the code); the
documented intensity range and curve set are enforced only by the range
input attributes (min 1, max 1.7, step 0.05) and the three select
options. -/
theorem compile_total (i : Frac) (c : String) :
    (command i c).length = 15 ∧ (command i c).head? = some "-i" ∧
    (command i c).getLast? = some outputName ∧
    intensityMin = ⟨1, 1⟩ ∧ intensityMax = ⟨17, 10⟩ ∧
    intensityStep = ⟨1, 20⟩ ∧
    curveOptions = ["hable", "mobius", "reinhard"] :=
  ⟨rfl, rfl, rfl, rfl, rfl, rfl, rfl⟩

/-- C3: a start-conversion request issued while the job stage is processing
is rejected by the disabled convert button: the state is returned unchanged
and no engine event (no log, write, execution or deletion) occurs. -/
theorem single_flight_run (s : AppState) (oc : RunOutcome)
    (h : s.stage = Stage.processing) :
    startConversion s oc = (s, []) := by
  simp [startConversion, convertEnabled, isReadyStage, isProcessingStage, h]

/-- Witness for C3 at a concrete in-flight state. -/
theorem single_flight_run_witness :
    startConversion processingState okRun = (processingState, []) :=
  single_flight_run processingState okRun rfl

/-- C6: whenever a conversion job actually starts (engine loaded, file
selected), the trace contains exactly one deletion attempt for the input
scratch name and exactly one for the output scratch name, whichever step
succeeds or fails, and the outcome of the two deletion attempts has no
influence on the resulting job state. -/
theorem guaranteed_cleanup (s : AppState) (oc : RunOutcome) (d1 d2 : Bool)
    (hload : s.ffmpegLoaded = true) (hfile : s.selectedFile.isSome = true) :
    countDelete inputName (processVideo s oc).2 = 1 ∧
    countDelete outputName (processVideo s oc).2 = 1 ∧
    (processVideo s { oc with delInputOk := d1, delOutputOk := d2 }).1 =
      (processVideo s oc).1 := by
  have hfile2 : ¬ s.selectedFile = none := by
    cases hsel : s.selectedFile
    · rw [hsel] at hfile
      simp at hfile
    · simp
  cases hres : oc.result <;>
    simp [processVideo, hres, hload, hfile2, countDelete, Event.isDeleteOf,
      finallyEvents, inputName, outputName]

/-- Witness for C6 at a concrete failing run with one deletion failing. -/
theorem guaranteed_cleanup_witness :
    countDelete inputName (processVideo readyState execFailRun).2 = 1 ∧
    countDelete outputName (processVideo readyState execFailRun).2 = 1 ∧
    (processVideo readyState
        { execFailRun with delInputOk := false, delOutputOk := true }).1 =
      (processVideo readyState execFailRun).1 :=
  guaranteed_cleanup readyState execFailRun false true rfl rfl

/-- C10: a failing conversion leaves any previously issued output handle
untouched and unrevoked — the failure path only sets the error stage and
the user-facing message, so a handle from an earlier successful job stays
live and exposed. -/
theorem failure_preserves_output_handle (s : AppState) (oc : RunOutcome)
    (h1 : s.ffmpegLoaded = true) (h2 : s.selectedFile.isSome = true)
    (h3 : oc.result ≠ RunResult.success) :
    (processVideo s oc).1.outputUrl = s.outputUrl ∧
    (processVideo s oc).2.filter Event.isRevoke = [] ∧
    (processVideo s oc).1.stage = Stage.error ∧
    (processVideo s oc).1.errorMessage = some convFailedMessage := by
  have hfile2 : ¬ s.selectedFile = none := by
    cases hsel : s.selectedFile
    · rw [hsel] at h2
      simp at h2
    · simp
  cases hres : oc.result
  · exact absurd hres h3
  all_goals
    simp [processVideo, hres, h1, hfile2, finallyEvents, Event.isRevoke,
      List.filter]

/-- Witness for C10 at a state holding the handle of an earlier success. -/
theorem failure_preserves_output_handle_witness :
    (processVideo completedState execFailRun).1.outputUrl =
      completedState.outputUrl ∧
    (processVideo completedState execFailRun).2.filter Event.isRevoke = [] ∧
    (processVideo completedState execFailRun).1.stage = Stage.error ∧
    (processVideo completedState execFailRun).1.errorMessage =
      some convFailedMessage :=
  failure_preserves_output_handle completedState execFailRun rfl rfl
    (by decide)

/-- First conversion started from the ready state, succeeding. -/
def firstRun : AppState × List Event := startConversion readyState okRun

/-- Second successful conversion started directly from the completed state
of the first, without selecting a new file (the button is enabled there). -/
def secondRun : AppState × List Event := startConversion firstRun.1 okRun

/-- C2 counterexample: two successful conversions in a row without a file
re-selection — the first job issues handle 0, the second completes and
exposes handle 1, yet its trace contains no revocation at all, so the
previous handle is not revoked before the new one replaces it. -/
theorem revoke_on_success_cex :
    firstRun.1.outputUrl = some 0 ∧
    secondRun.1.stage = Stage.completed ∧
    secondRun.1.outputUrl = some 1 ∧
    secondRun.2.filter Event.isRevoke = [] := by
  refine ⟨?_, ?_, ?_, ?_⟩ <;> decide

/-- C2 (amended): on engine success the new output handle replaces the
previous one without revoking it (the success path emits no revocation);
a previously issued handle is revoked only when a new source file is
selected, which also clears the exposed output.  So at most one handle is
exposed at a time, but success does not revoke the superseded handle. -/
theorem output_handle_lifecycle (s : AppState) (oc : RunOutcome)
    (f : String) (u : Nat)
    (h1 : s.ffmpegLoaded = true) (h2 : s.selectedFile.isSome = true)
    (h3 : oc.result = RunResult.success) (h4 : s.outputUrl = some u) :
    (processVideo s oc).1.outputUrl = some s.nextUrl ∧
    (processVideo s oc).2.filter Event.isRevoke = [] ∧
    (handleFileChange s (some f)).2 = [Event.revokeUrl u] ∧
    (handleFileChange s (some f)).1.outputUrl = none := by
  have hfile2 : ¬ s.selectedFile = none := by
    cases hsel : s.selectedFile
    · rw [hsel] at h2
      simp at h2
    · simp
  simp [processVideo, h3, h1, hfile2, finallyEvents, Event.isRevoke,
    List.filter, handleFileChange, h4]

/-- Witness for the amended C2 at the state after a first success. -/
theorem output_handle_lifecycle_witness :
    (processVideo completedState okRun).1.outputUrl = some 1 ∧
    (processVideo completedState okRun).2.filter Event.isRevoke = [] ∧
    (handleFileChange completedState (some "clip2.mp4")).2 =
      [Event.revokeUrl 0] ∧
    (handleFileChange completedState (some "clip2.mp4")).1.outputUrl =
      none :=
  output_handle_lifecycle completedState okRun "clip2.mp4" 0 rfl rfl rfl rfl

/-- A completed state whose buffer holds a line from the finished job. -/
def strayLogState : AppState :=
  { completedState with logMessages := ["frame=30 done"] }

/-- C8 counterexample: the log callback is not detached outside a job — a
line emitted while the stage is completed (no job Running) is still
appended to the visible log buffer. -/
theorem log_capture_outside_running_cex :
    strayLogState.stage ≠ Stage.processing ∧
    (onLogEvent strayLogState "stray diagnostic line").logMessages =
      ["frame=30 done", "stray diagnostic line"] ∧
    (onLogEvent strayLogState "stray diagnostic line").stage =
      strayLogState.stage := by
  refine ⟨by decide, by decide, by decide⟩

/-- C8 (amended): the log callback registered at engine load appends every
emitted line in every stage (there is no attach/detach around a job); the
only cross-job isolation is the reset at job start, after which the buffer
holds exactly the lines the run itself emitted, independent of any earlier
content. -/
theorem log_reset_isolation (s : AppState) (m : String) (oc : RunOutcome)
    (h1 : s.ffmpegLoaded = true) (h2 : s.selectedFile.isSome = true) :
    (onLogEvent s m).logMessages = appendLog s.logMessages m ∧
    (onLogEvent s m).stage = s.stage ∧
    (processVideo s oc).1.logMessages =
      (if oc.result = RunResult.failAtWrite then []
       else List.foldl appendLog [] oc.execLogs) := by
  have hfile2 : ¬ s.selectedFile = none := by
    cases hsel : s.selectedFile
    · rw [hsel] at h2
      simp at h2
    · simp
  refine ⟨rfl, rfl, ?_⟩
  cases hres : oc.result <;>
    simp [processVideo, hres, h1, hfile2, onLogEvent]

/-- Witness for the amended C8 at a state with stale log content. -/
theorem log_reset_isolation_witness :
    (onLogEvent strayLogState "x").logMessages =
      appendLog strayLogState.logMessages "x" ∧
    (onLogEvent strayLogState "x").stage = strayLogState.stage ∧
    (processVideo strayLogState okRun).1.logMessages =
      (if okRun.result = RunResult.failAtWrite then []
       else List.foldl appendLog [] okRun.execLogs) :=
  log_reset_isolation strayLogState "x" okRun rfl rfl

/-- processVideo never changes whether the engine handle is present. -/
theorem processVideo_preserves_loaded (s : AppState) (oc : RunOutcome) :
    (processVideo s oc).1.ffmpegLoaded = s.ffmpegLoaded := by
  by_cases hg : (s.ffmpegLoaded = false ∨ s.selectedFile = none)
  · simp [processVideo, hg]
  · cases hres : oc.result <;> simp [processVideo, hg, hres]

/-- startConversion never changes whether the engine handle is present. -/
theorem startConversion_preserves_loaded (s : AppState) (oc : RunOutcome) :
    (startConversion s oc).1.ffmpegLoaded = s.ffmpegLoaded := by
  by_cases hc : convertEnabled s = true
  · simp [startConversion, hc, processVideo_preserves_loaded]
  · simp [startConversion, hc]

/-- handleFileChange never changes whether the engine handle is present. -/
theorem handleFileChange_preserves_loaded (s : AppState) (f : String) :
    (handleFileChange s (some f)).1.ffmpegLoaded = s.ffmpegLoaded := by
  simp [handleFileChange]

/-- C9: from an unloaded state with no load in flight, a first load call
starts exactly one initialization and a second call made before the first
resolves starts nothing and changes nothing; both callers then observe the
shared Loaded outcome when the single load resolves; once the handle is
loaded, a further load call is a no-op, and no operation of the component
(conversion, gated start, file selection, log delivery) ever unsets the
loaded handle. -/
theorem single_flight_load (s s2 s3 : AppState) (oc : RunOutcome)
    (f m : String)
    (h1 : s.ffmpegLoaded = false) (h2 : s.stage ≠ Stage.loadingFFmpeg)
    (h3 : s2.ffmpegLoaded = true) (h4 : s3.ffmpegLoaded = true) :
    (loadFFmpegStart s).2 = true ∧
    loadFFmpegStart (loadFFmpegStart s).1 = ((loadFFmpegStart s).1, false) ∧
    (loadFFmpegResolve (loadFFmpegStart s).1 true).ffmpegLoaded = true ∧
    (loadFFmpegResolve (loadFFmpegStart s).1 true).stage = Stage.ready ∧
    loadFFmpegStart s2 = (s2, false) ∧
    (processVideo s3 oc).1.ffmpegLoaded = true ∧
    (startConversion s3 oc).1.ffmpegLoaded = true ∧
    (handleFileChange s3 (some f)).1.ffmpegLoaded = true ∧
    (onLogEvent s3 m).ffmpegLoaded = true := by
  refine ⟨?_, ?_, ?_, ?_, ?_, ?_, ?_, ?_, ?_⟩
  · simp [loadFFmpegStart, h1, h2]
  · simp [loadFFmpegStart, h1, h2]
  · simp [loadFFmpegStart, h1, h2, loadFFmpegResolve]
  · simp [loadFFmpegStart, h1, h2, loadFFmpegResolve]
  · simp [loadFFmpegStart, h3]
  · rw [processVideo_preserves_loaded]
    exact h4
  · rw [startConversion_preserves_loaded]
    exact h4
  · rw [handleFileChange_preserves_loaded]
    exact h4
  · exact h4

/-- Witness for C9 from the initial idle state and the ready state. -/
theorem single_flight_load_witness :
    (loadFFmpegStart initState).2 = true ∧
    loadFFmpegStart (loadFFmpegStart initState).1 =
      ((loadFFmpegStart initState).1, false) ∧
    (loadFFmpegResolve (loadFFmpegStart initState).1 true).ffmpegLoaded =
      true ∧
    (loadFFmpegResolve (loadFFmpegStart initState).1 true).stage =
      Stage.ready ∧
    loadFFmpegStart readyState = (readyState, false) ∧
    (processVideo readyState okRun).1.ffmpegLoaded = true ∧
    (startConversion readyState okRun).1.ffmpegLoaded = true ∧
    (handleFileChange readyState (some "clip2.mp4")).1.ffmpegLoaded = true ∧
    (onLogEvent readyState "x").ffmpegLoaded = true :=
  single_flight_load initState readyState readyState okRun "clip2.mp4" "x"
    rfl (by decide) rfl rfl
